import Mathlib

/-!
Verification development for `maua/diffusion/wrappers/guided.py`.

The file shallowly embeds the pieces of the module that the checked
properties concern:

* `t_to_alpha_sigma` — the trigonometric noise schedule (line 26);
* `SecondaryDiffusionImageNet2.forward` — the per-element algebra turning
  the network's velocity output into `pred`/`eps` (lines 133–139); the
  convolutional network producing `v` is opaque, so `v` is a parameter;
* `Net`/`evalNet` — the shape semantics of the secondary U-Net built in
  `SecondaryDiffusionImageNet2.__init__` (lines 66–131): channel counts and
  (square) spatial sizes are tracked, and each layer either produces the
  shape PyTorch would produce or fails (`none`) exactly where PyTorch would
  raise (a conv on an empty spatial extent, a channel mismatch, or a
  `torch.cat` of mismatched spatial sizes in a skip connection);
* the sampling loop of `GuidedDiffusion.sample` (lines 245–281), modelled
  generically over an image type `α` and a one-step-sampler output type `β`
  with a `sample`-field projection `smp : β → α`; the one-step sampler,
  the forward-noising function `diffusion.q_sample`, and the guidance
  strategy are external collaborators and enter as function parameters;
  the loop records a trace of its calls so that invocation counts,
  timesteps, history threading and image threading can be stated;
* the sampler-kind dispatch of `GuidedDiffusion.__init__` (lines 232–239)
  and the parameter-freezing scan of `create_models` (lines 190–193).
-/

/-- Embedding of `t_to_alpha_sigma` (guided.py line 26):
`return torch.cos(t * torch.pi / 2), torch.sin(t * torch.pi / 2)`,
read per tensor element over the reals. -/
noncomputable def t_to_alpha_sigma (t : ℝ) : ℝ × ℝ :=
  (Real.cos (t * Real.pi / 2), Real.sin (t * Real.pi / 2))

/-- Embedding of the `DiffusionOutput` dataclass (guided.py lines 30–34),
per tensor element. -/
structure DiffusionOutput where
  v : ℝ
  pred : ℝ
  eps : ℝ

/-- Embedding of `SecondaryDiffusionImageNet2.forward` (guided.py lines
133–139), per tensor element.  The convolutional network `self.net` is an
opaque collaborator, so its output `v` is a parameter; the function
computes `pred = input * alphas - v * sigmas` and
`eps = input * sigmas + v * alphas` exactly as lines 137–138 do. -/
noncomputable def SecondaryDiffusionImageNet2.forward (x t v : ℝ) : DiffusionOutput :=
  let a := (t_to_alpha_sigma t).1
  let s := (t_to_alpha_sigma t).2
  { v := v, pred := x * a - v * s, eps := x * s + v * a }

/-- Layer-sequence syntax for the secondary U-Net's shape semantics.
`conv cin cout rest` is a `Conv2d(cin, cout, 3, padding=1)` (a `ConvBlock`'s
ReLU changes no shape and is dropped); `down rest` is `AvgPool2d(2)`;
`up rest` is `Upsample(scale_factor=2)`; `skip main rest` is
`SkipBlock(main)` (guided.py lines 45–52), which concatenates the output of
`main` with its input along the channel dimension. -/
inductive Net where
  | nil : Net
  | conv : Nat → Nat → Net → Net
  | down : Net → Net
  | up : Net → Net
  | skip : Net → Net → Net
deriving DecidableEq

/-- Shape semantics of a layer sequence on (channels, square spatial size).
`conv` requires the expected input channel count and a nonempty spatial
extent (a 3×3 conv with padding 1 raises on spatial size 0, since the
padded size 2 is smaller than the kernel); `down` floors the spatial size
(`AvgPool2d(2)`); `up` doubles it; `skip` runs its main branch and
concatenates with the identity branch, which requires equal spatial sizes
and adds the channel counts (guided.py line 52). -/
def evalNet : Net → Nat × Nat → Option (Nat × Nat)
  | .nil, cs => some cs
  | .conv cin cout rest, (c, s) =>
      if c = cin ∧ 1 ≤ s then evalNet rest (cout, s) else none
  | .down rest, (c, s) => evalNet rest (c, s / 2)
  | .up rest, (c, s) => evalNet rest (c, 2 * s)
  | .skip main rest, (c, s) =>
      match evalNet main (c, s) with
      | some (c2, s2) => if s2 = s then evalNet rest (c2 + c, s) else none
      | none => none

/-- Number of `AvgPool2d(2)` downsampling layers in a layer sequence,
counting through skip branches. -/
def countDowns : Net → Nat
  | .nil => 0
  | .conv _ _ rest => countDowns rest
  | .down rest => 1 + countDowns rest
  | .up rest => countDowns rest
  | .skip main rest => countDowns main + countDowns rest

/-- Number of `Upsample(scale_factor=2)` layers in a layer sequence,
counting through skip branches. -/
def countUps : Net → Nat
  | .nil => 0
  | .conv _ _ rest => countUps rest
  | .down rest => countUps rest
  | .up rest => 1 + countUps rest
  | .skip main rest => countUps main + countUps rest

/-- Innermost `SkipBlock` main branch of the secondary U-Net (guided.py
lines 99–108): with `cs = [64, 128, 128, 256, 256, 512]`, this is
`[down, ConvBlock(cs[4], cs[5]), ConvBlock(cs[5], cs[5]),
ConvBlock(cs[5], cs[5]), ConvBlock(cs[5], cs[4]), up]`. -/
def block5 : Net :=
  .down (.conv 256 512 (.conv 512 512 (.conv 512 512 (.conv 512 256 (.up .nil)))))

/-- Fourth-level `SkipBlock` main branch (guided.py lines 94–113):
`[down, ConvBlock(cs[3], cs[4]), ConvBlock(cs[4], cs[4]), SkipBlock(...),
ConvBlock(cs[4]*2, cs[4]), ConvBlock(cs[4], cs[3]), up]`. -/
def block4 : Net :=
  .down (.conv 256 256 (.conv 256 256 (.skip block5
    (.conv 512 256 (.conv 256 256 (.up .nil))))))

/-- Third-level `SkipBlock` main branch (guided.py lines 89–118). -/
def block3 : Net :=
  .down (.conv 128 256 (.conv 256 256 (.skip block4
    (.conv 512 256 (.conv 256 128 (.up .nil))))))

/-- Second-level `SkipBlock` main branch (guided.py lines 84–123). -/
def block2 : Net :=
  .down (.conv 128 128 (.conv 128 128 (.skip block3
    (.conv 256 128 (.conv 128 128 (.up .nil))))))

/-- Outermost `SkipBlock` main branch (guided.py lines 79–128). -/
def block1 : Net :=
  .down (.conv 64 128 (.conv 128 128 (.skip block2
    (.conv 256 128 (.conv 128 64 (.up .nil))))))

/-- The full `self.net` of `SecondaryDiffusionImageNet2.__init__`
(guided.py lines 76–131): `ConvBlock(3 + 16, cs[0])`,
`ConvBlock(cs[0], cs[0])`, the nested skip structure,
`ConvBlock(cs[0]*2, cs[0])`, `Conv2d(cs[0], 3, 3, padding=1)`.  The input
has `3 + 16` channels because the 16-channel Fourier timestep embedding is
concatenated to the 3-channel image (guided.py lines 134–135). -/
def secondaryNet : Net :=
  .conv 19 64 (.conv 64 64 (.skip block1 (.conv 128 64 (.conv 64 3 .nil))))

/-- The three sampler kinds dispatched in `GuidedDiffusion.__init__`
(guided.py lines 232–239): ancestral (`"p"`), `"ddim"`, `"plms"`. -/
inductive Sampler where
  | p : Sampler
  | ddim : Sampler
  | plms : Sampler
deriving DecidableEq

/-- History argument a one-step-sampler invocation receives.  For
`"plms"`, `self.sample_fn = lambda old_out: partial(plms_sample, ...,
old_out=old_out, ...)` passes the previous full output; for `"p"` and
`"ddim"` the lambda is `lambda _: ...` and discards it (guided.py lines
232–239). -/
def histArg {β : Type} : Sampler → Option β → Option β
  | .plms, o => o
  | .p, _ => none
  | .ddim, _ => none

/-- One recorded invocation of the bound one-step sampler inside the loop
of `GuidedDiffusion.sample`: the timestep `t` passed (guided.py line 277),
the history argument received, the working image passed in, and the full
output structure returned. -/
structure Call (α β : Type) where
  t : Int
  hist : Option β
  imgIn : α
  out : β

/-- The loop body of `GuidedDiffusion.sample` (guided.py lines 270–279):
`out = None`, then for each timestep `i`,
`out = self.sample_fn(out)(self.model, img, t, ...)`; `img = out["sample"]`.
`smp` projects the `"sample"` field out of the sampler's output.  The
result is the final image together with the trace of invocations. -/
def runLoop {α β : Type} (k : Sampler) (smp : β → α)
    (stepF : Int → α → Option β → β) :
    List Int → α → Option β → α × List (Call α β)
  | [], img, _ => (img, [])
  | t :: ts, img, prev =>
      let h := histArg k prev
      let o := stepF t img h
      let r := runLoop k smp stepF ts (smp o) (some o)
      (r.1, { t := t, hist := h, imgIn := img, out := o } :: r.2)

/-- The timestep sequence of `GuidedDiffusion.sample` (guided.py line 266):
`range(start_step - 1, start_step - n_steps - 1, -1)`, i.e. the `n_steps`
integers `start_step - 1, start_step - 2, …, start_step - n_steps`. -/
def stepsList (start_step : Int) (n_steps : Nat) : List Int :=
  (List.range n_steps).map (fun j => start_step - 1 - Int.ofNat j)

/-- The forward-noising preamble of `GuidedDiffusion.sample` (guided.py
lines 260–264): `if q_sample is None: q_sample = start_step`;
`if q_sample > 0: img = self.diffusion.q_sample(img, q_sample - 1, noise)`.
`qfn` is the external `diffusion.q_sample` taking the timestep, the
optional explicit noise and the image. -/
def applyQ {α : Type} (qfn : Int → Option α → α → α) (start_step : Int)
    (q_sample : Option Int) (noise : Option α) (img : α) : α :=
  let q := q_sample.getD start_step
  if 0 < q then qfn (q - 1) noise img else img

/-- Embedding of `GuidedDiffusion.sample` (guided.py lines 245–281):
forward-noise the initial image if requested, then run the reverse loop
over `stepsList start_step n_steps` starting with `out = None`.  Returns
the final image and the invocation trace. -/
def GuidedDiffusion.sample {α β : Type} (k : Sampler) (smp : β → α)
    (stepF : Int → α → Option β → β) (qfn : Int → Option α → α → α)
    (img : α) (start_step : Int) (n_steps : Nat)
    (q_sample : Option Int) (noise : Option α) : α × List (Call α β) :=
  runLoop k smp stepF (stepsList start_step n_steps)
    (applyQ qfn start_step q_sample noise img) none

/-- Embedding of `GuidedDiffusion.forward` (guided.py lines 283–286):
`steps = len(self.diffusion.use_timesteps)`; delegate to `sample` with
`start_step = steps` and `n_steps = steps`, leaving `q_sample` and `noise`
at their defaults (`None`).  The freshly drawn `torch.randn` starting
tensor is the parameter `img`. -/
def GuidedDiffusion.forward {α β : Type} (k : Sampler) (smp : β → α)
    (stepF : Int → α → Option β → β) (qfn : Int → Option α → α → α)
    (totalSteps : Nat) (img : α) : α × List (Call α β) :=
  GuidedDiffusion.sample k smp stepF qfn img (totalSteps : Int) totalSteps
    none none

/-- The sampler-kind dispatch of `GuidedDiffusion.__init__` (guided.py
lines 232–239): an `if/elif/elif` chain with no `else` branch, so an
unknown kind assigns nothing. -/
def initSampleFn (sampler : String) : Option Sampler :=
  if sampler = "p" then some Sampler.p
  else if sampler = "ddim" then some Sampler.ddim
  else if sampler = "plms" then some Sampler.plms
  else none

/-- The sampler-relevant state a `GuidedDiffusion.__init__` call leaves
behind: `sample_fn` is `none` exactly when the attribute was never
assigned. -/
structure GuidedDiffusionState where
  sample_fn : Option Sampler
deriving DecidableEq

/-- Embedding of the construction path of `GuidedDiffusion.__init__`
relevant to sampler selection (guided.py lines 211–243).  The method body
raises no exception on an unknown sampler kind: it is a total function,
and an unrecognized `sampler` string merely leaves `sample_fn`
unassigned. -/
def GuidedDiffusion.construct (sampler : String) : GuidedDiffusionState :=
  { sample_fn := initSampleFn sampler }

/-- Calling `sample` on a constructed object.  When `sample_fn` was never
assigned (unknown sampler kind), the first loop iteration's
`self.sample_fn(out)` raises `AttributeError`, modelled as `none`; when
`n_steps = 0` the loop body never runs and the (possibly forward-noised)
image is returned without touching `sample_fn`. -/
def GuidedDiffusion.sampleMethod {α β : Type} (st : GuidedDiffusionState)
    (smp : β → α) (stepF : Int → α → Option β → β)
    (qfn : Int → Option α → α → α) (img : α) (start_step : Int)
    (n_steps : Nat) (q_sample : Option Int) (noise : Option α) :
    Option (α × List (Call α β)) :=
  match st.sample_fn with
  | some k =>
      some (GuidedDiffusion.sample k smp stepF qfn img start_step n_steps
        q_sample noise)
  | none =>
      if n_steps = 0 then
        some (applyQ qfn start_step q_sample noise img, [])
      else none

/-- The parameter-name test of `create_models` (guided.py line 192):
`"qkv" in name or "norm" in name or "proj" in name`, i.e. substring
containment. -/
def guided_param_match (name : String) : Bool :=
  decide (("qkv").toList <:+: name.toList)
    || decide (("norm").toList <:+: name.toList)
    || decide (("proj").toList <:+: name.toList)

/-- The gradient-flag scan of `create_models` (guided.py lines 190–193):
`diffusion_model.requires_grad_(False)` freezes every parameter, then the
loop re-enables gradients on those whose name matches
`guided_param_match`.  Parameters are modelled as (name, requires_grad)
pairs. -/
def create_models_param_grads (params : List (String × Bool)) :
    List (String × Bool) :=
  (params.map (fun p => (p.1, false))).map
    (fun p => if guided_param_match p.1 then (p.1, true) else p)

/-- Conclusion of the sampling-loop trace property (claim about
`GuidedDiffusion.sample`): the trace has exactly `n_steps` entries, the
timesteps are `start_step - 1, …, start_step - n_steps` in order, the
first invocation receives the (possibly forward-noised) initial image,
each later invocation receives the `"sample"` field of the previous
output, and the final image is the `"sample"` field of the last output. -/
def sampleTraceSpec {α β : Type} (k : Sampler) (smp : β → α)
    (stepF : Int → α → Option β → β) (qfn : Int → Option α → α → α)
    (img : α) (start_step : Int) (n_steps : Nat)
    (q_sample : Option Int) (noise : Option α) : Prop :=
  let res := GuidedDiffusion.sample k smp stepF qfn img start_step n_steps
    q_sample noise
  res.2.length = n_steps ∧
  res.2.map Call.t = stepsList start_step n_steps ∧
  (∀ j : Fin n_steps,
    (res.2.map Call.t)[(j : Nat)]? = some (start_step - 1 - ((j : Nat) : Int))) ∧
  res.2.head?.map Call.imgIn = some (applyQ qfn start_step q_sample noise img) ∧
  List.Chain' (fun a b => b.imgIn = smp a.out) res.2 ∧
  res.2.getLast?.map (fun c => smp c.out) = some res.1

/-- Conclusion of the PLMS history property: the first invocation receives
`old_out = None` and each later invocation receives exactly the previous
invocation's full output structure. -/
def plmsFirstNoHistory {α β : Type} (smp : β → α)
    (stepF : Int → α → Option β → β) (qfn : Int → Option α → α → α)
    (img : α) (start_step : Int) (n_steps : Nat)
    (q_sample : Option Int) (noise : Option α) : Prop :=
  let res := GuidedDiffusion.sample Sampler.plms smp stepF qfn img start_step
    n_steps q_sample noise
  res.2.head?.map Call.hist = some none ∧
  List.Chain' (fun a b => b.hist = some a.out) res.2

/-- Conclusion of the Markovian-sampler property: every invocation under
sampler kind `k` receives no history. -/
def markovNoHistory {α β : Type} (k : Sampler) (smp : β → α)
    (stepF : Int → α → Option β → β) (qfn : Int → Option α → α → α)
    (img : α) (start_step : Int) (n_steps : Nat)
    (q_sample : Option Int) (noise : Option α) : Prop :=
  ∀ c ∈ (GuidedDiffusion.sample k smp stepF qfn img start_step n_steps
    q_sample noise).2, c.hist = none

/-! ## General lemmas about the sampling loop -/

theorem runLoop_map_t {α β : Type} (k : Sampler) (smp : β → α)
    (stepF : Int → α → Option β → β) (ts : List Int) :
    ∀ (img : α) (prev : Option β),
      (runLoop k smp stepF ts img prev).2.map Call.t = ts := by
  induction ts with
  | nil => intro img prev; rfl
  | cons t ts ih => intro img prev; simp only [runLoop, List.map_cons, ih]

theorem runLoop_length {α β : Type} (k : Sampler) (smp : β → α)
    (stepF : Int → α → Option β → β) (ts : List Int) (img : α)
    (prev : Option β) :
    (runLoop k smp stepF ts img prev).2.length = ts.length := by
  conv_rhs => rw [← runLoop_map_t k smp stepF ts img prev]
  rw [List.length_map]

theorem runLoop_head {α β : Type} (k : Sampler) (smp : β → α)
    (stepF : Int → α → Option β → β) (ts : List Int) (img : α)
    (prev : Option β) :
    ∀ y ∈ (runLoop k smp stepF ts img prev).2.head?,
      y.imgIn = img ∧ y.hist = histArg k prev := by
  cases ts with
  | nil => intro y hy; simp [runLoop] at hy
  | cons t ts =>
      intro y hy
      simp only [runLoop, List.head?_cons, Option.mem_def,
        Option.some.injEq] at hy
      subst hy
      exact ⟨rfl, rfl⟩

theorem runLoop_chain_imgIn {α β : Type} (k : Sampler) (smp : β → α)
    (stepF : Int → α → Option β → β) (ts : List Int) :
    ∀ (img : α) (prev : Option β),
      List.Chain' (fun a b => b.imgIn = smp a.out)
        (runLoop k smp stepF ts img prev).2 := by
  induction ts with
  | nil => intro img prev; simp [runLoop]
  | cons t ts ih =>
      intro img prev
      simp only [runLoop]
      rw [List.chain'_cons']
      refine ⟨?_, ih _ _⟩
      intro y hy
      exact (runLoop_head k smp stepF ts _ _ y hy).1

theorem runLoop_chain_hist {α β : Type} (smp : β → α)
    (stepF : Int → α → Option β → β) (ts : List Int) :
    ∀ (img : α) (prev : Option β),
      List.Chain' (fun a b => b.hist = some a.out)
        (runLoop Sampler.plms smp stepF ts img prev).2 := by
  induction ts with
  | nil => intro img prev; simp [runLoop]
  | cons t ts ih =>
      intro img prev
      simp only [runLoop]
      rw [List.chain'_cons']
      refine ⟨?_, ih _ _⟩
      intro y hy
      have h := (runLoop_head Sampler.plms smp stepF ts _ _ y hy).2
      simpa [histArg] using h

theorem runLoop_hist_none {α β : Type} (k : Sampler)
    (hk : ∀ (o : Option β), histArg k o = none) (smp : β → α)
    (stepF : Int → α → Option β → β) (ts : List Int) :
    ∀ (img : α) (prev : Option β) (c : Call α β),
      c ∈ (runLoop k smp stepF ts img prev).2 → c.hist = none := by
  induction ts with
  | nil => intro img prev c hc; simp [runLoop] at hc
  | cons t ts ih =>
      intro img prev c hc
      simp only [runLoop, List.mem_cons] at hc
      rcases hc with h | h
      · subst h; exact hk prev
      · exact ih _ _ c h

theorem foldl_ignore_getLast {γ δ : Type} (f : γ → δ) (l : List γ) :
    ∀ (init : δ), l.foldl (fun _ c => f c) init = l.getLast?.elim init f := by
  induction l with
  | nil => intro init; rfl
  | cons c l ih =>
      intro init
      cases l with
      | nil => simp
      | cons c2 l2 =>
          rw [List.foldl_cons, ih, List.getLast?_cons_cons]
          obtain ⟨x, hx⟩ := Option.isSome_iff_exists.mp
            (List.getLast?_isSome.mpr (List.cons_ne_nil c2 l2))
          rw [hx]
          rfl

theorem runLoop_fst_eq_foldl {α β : Type} (k : Sampler) (smp : β → α)
    (stepF : Int → α → Option β → β) (ts : List Int) :
    ∀ (img : α) (prev : Option β),
      (runLoop k smp stepF ts img prev).1 =
        (runLoop k smp stepF ts img prev).2.foldl (fun _ c => smp c.out) img := by
  induction ts with
  | nil => intro img prev; rfl
  | cons t ts ih =>
      intro img prev
      simp only [runLoop, List.foldl_cons]
      exact ih _ _

theorem runLoop_getLast_smp {α β : Type} (k : Sampler) (smp : β → α)
    (stepF : Int → α → Option β → β) (ts : List Int) (img : α)
    (prev : Option β) (h : ts ≠ []) :
    (runLoop k smp stepF ts img prev).2.getLast?.map (fun c => smp c.out) =
      some (runLoop k smp stepF ts img prev).1 := by
  have h1 := runLoop_fst_eq_foldl k smp stepF ts img prev
  rw [foldl_ignore_getLast] at h1
  have hne : (runLoop k smp stepF ts img prev).2 ≠ [] := by
    intro hnil
    have hl := runLoop_length k smp stepF ts img prev
    rw [hnil] at hl
    exact h (List.length_eq_zero.mp hl.symm)
  obtain ⟨x, hx⟩ := Option.isSome_iff_exists.mp (List.getLast?_isSome.mpr hne)
  rw [hx] at h1 ⊢
  simp [h1]

theorem stepsList_length (start_step : Int) (n_steps : Nat) :
    (stepsList start_step n_steps).length = n_steps := by
  rw [stepsList, List.length_map, List.length_range]

theorem stepsList_ne_nil (start_step : Int) (n_steps : Nat)
    (hN : 1 ≤ n_steps) : stepsList start_step n_steps ≠ [] := by
  intro h
  have := stepsList_length start_step n_steps
  rw [h] at this
  simp at this
  omega

theorem stepsList_getElem (start_step : Int) (n_steps j : Nat)
    (hj : j < n_steps) :
    (stepsList start_step n_steps)[j]? =
      some (start_step - 1 - (j : Int)) := by
  rw [stepsList, List.getElem?_map, List.getElem?_range hj]
  rfl

theorem sample_head_imgIn {α β : Type} (k : Sampler) (smp : β → α)
    (stepF : Int → α → Option β → β) (qfn : Int → Option α → α → α)
    (img : α) (start_step : Int) (n_steps : Nat) (q_sample : Option Int)
    (noise : Option α) (hN : 1 ≤ n_steps) :
    (GuidedDiffusion.sample k smp stepF qfn img start_step n_steps q_sample
      noise).2.head?.map Call.imgIn =
      some (applyQ qfn start_step q_sample noise img) := by
  obtain ⟨t, ts, hts⟩ :=
    List.exists_cons_of_ne_nil (stepsList_ne_nil start_step n_steps hN)
  unfold GuidedDiffusion.sample
  rw [hts]
  simp [runLoop]

/-! ## Claim theorems -/

/-- C1: for every call `sample(img, prompts, start_step = S, n_steps = N)`
with `N ≥ 1`, the bound one-step sampler is invoked exactly `N` times,
with the timestep argument taking the strictly decreasing values
`S-1, S-2, …, S-N`, the working image being replaced after each invocation
by the `"sample"` field of that invocation's result, and the image after
the last step being returned. -/
theorem sample_loop_trace_correct {α β : Type} (k : Sampler) (smp : β → α)
    (stepF : Int → α → Option β → β) (qfn : Int → Option α → α → α)
    (img : α) (S : Int) (N : Nat) (q : Option Int) (noise : Option α)
    (hN : 1 ≤ N) :
    sampleTraceSpec k smp stepF qfn img S N q noise := by
  unfold sampleTraceSpec
  refine ⟨?_, ?_, ?_, ?_, ?_, ?_⟩
  · unfold GuidedDiffusion.sample
    rw [runLoop_length, stepsList_length]
  · unfold GuidedDiffusion.sample
    exact runLoop_map_t k smp stepF _ _ _
  · intro j
    unfold GuidedDiffusion.sample
    rw [runLoop_map_t k smp stepF _ _ _]
    exact stepsList_getElem S N j j.2
  · exact sample_head_imgIn k smp stepF qfn img S N q noise hN
  · unfold GuidedDiffusion.sample
    exact runLoop_chain_imgIn k smp stepF _ _ _
  · unfold GuidedDiffusion.sample
    exact runLoop_getLast_smp k smp stepF _ _ _ (stepsList_ne_nil S N hN)

/-- Witness for `sample_loop_trace_correct` at a concrete instance. -/
theorem sample_loop_trace_correct_witness :
    1 ≤ 3 ∧
    sampleTraceSpec Sampler.p (id : Int → Int) (fun t x _ => x + t)
      (fun _ _ x => x) 0 5 3 (some 0) none :=
  ⟨by decide,
    sample_loop_trace_correct Sampler.p (id : Int → Int) (fun t x _ => x + t)
      (fun _ _ x => x) 0 5 3 (some 0) none (by decide)⟩

/-- C5: when the PLMS sampler is selected, within each `sample` run the
first one-step-sampler invocation receives no prior-step history and every
subsequent invocation receives exactly the full output structure of the
immediately preceding invocation; the ancestral (`"p"`) and DDIM samplers
receive no history at any invocation. -/
theorem plms_history_threading {α β : Type} (smp : β → α)
    (stepF : Int → α → Option β → β) (qfn : Int → Option α → α → α)
    (img : α) (S : Int) (N : Nat) (q : Option Int) (noise : Option α)
    (hN : 1 ≤ N) :
    plmsFirstNoHistory smp stepF qfn img S N q noise ∧
    markovNoHistory Sampler.p smp stepF qfn img S N q noise ∧
    markovNoHistory Sampler.ddim smp stepF qfn img S N q noise := by
  refine ⟨⟨?_, ?_⟩, ?_, ?_⟩
  · obtain ⟨t, ts, hts⟩ :=
      List.exists_cons_of_ne_nil (stepsList_ne_nil S N hN)
    unfold GuidedDiffusion.sample
    rw [hts]
    simp [runLoop, histArg]
  · unfold GuidedDiffusion.sample
    exact runLoop_chain_hist smp stepF _ _ _
  · intro c hc
    exact runLoop_hist_none Sampler.p (fun o => rfl) smp stepF _ _ _ c hc
  · intro c hc
    exact runLoop_hist_none Sampler.ddim (fun o => rfl) smp stepF _ _ _ c hc

/-- Witness for `plms_history_threading` at a concrete instance. -/
theorem plms_history_threading_witness :
    1 ≤ 2 ∧
    (plmsFirstNoHistory (id : Int → Int) (fun t x _ => x * t)
        (fun _ _ x => x) 1 4 2 none none ∧
      markovNoHistory Sampler.p (id : Int → Int) (fun t x _ => x * t)
        (fun _ _ x => x) 1 4 2 none none ∧
      markovNoHistory Sampler.ddim (id : Int → Int) (fun t x _ => x * t)
        (fun _ _ x => x) 1 4 2 none none) :=
  ⟨by decide,
    plms_history_threading (id : Int → Int) (fun t x _ => x * t)
      (fun _ _ x => x) 1 4 2 none none (by decide)⟩

/-- C6: calling `sample` with `q_sample = 0` performs no forward-noising
operation (the result of the preamble is the unmodified initial image, for
every forward-noising function), and the caller's initial image enters the
reverse-sampling loop unmodified as the first invocation's working
image. -/
theorem sample_qsample_zero_identity {α β : Type} (k : Sampler)
    (smp : β → α) (stepF : Int → α → Option β → β)
    (qfn : Int → Option α → α → α) (img : α) (S : Int) (N : Nat)
    (noise : Option α) (hN : 1 ≤ N) :
    applyQ qfn S (some 0) noise img = img ∧
    (GuidedDiffusion.sample k smp stepF qfn img S N (some 0)
      noise).2.head?.map Call.imgIn = some img := by
  have h0 : applyQ qfn S (some 0) noise img = img := by
    simp [applyQ]
  refine ⟨h0, ?_⟩
  rw [sample_head_imgIn k smp stepF qfn img S N (some 0) noise hN, h0]

/-- Witness for `sample_qsample_zero_identity` at a concrete instance. -/
theorem sample_qsample_zero_identity_witness :
    1 ≤ 1 ∧
    (applyQ (fun _ _ x => x + 7) 3 (some 0) none (5 : Int) = 5 ∧
      (GuidedDiffusion.sample Sampler.ddim (id : Int → Int)
        (fun t x _ => x - t) (fun _ _ x => x + 7) 5 3 1 (some 0)
        none).2.head?.map Call.imgIn = some 5) :=
  ⟨by decide,
    sample_qsample_zero_identity Sampler.ddim (id : Int → Int)
      (fun t x _ => x - t) (fun _ _ x => x + 7) 5 3 1 none (by decide)⟩

/-- C3: for every input `x`, timestep `t`, and velocity `v` produced by the
secondary denoiser's network, the returned `DiffusionOutput` satisfies
`pred = x·cos(tπ/2) − v·sin(tπ/2)` and `eps = x·sin(tπ/2) + v·cos(tπ/2)`,
so `pred` and `eps` are fully determined by `x`, `t`, `v`, and the inverse
algebra recovers `v` (and `x`) from `pred` and `eps` (round-trip). -/
theorem secondary_forward_pred_eps_roundtrip (x t v : ℝ) :
    (SecondaryDiffusionImageNet2.forward x t v).pred
        = x * Real.cos (t * Real.pi / 2) - v * Real.sin (t * Real.pi / 2) ∧
    (SecondaryDiffusionImageNet2.forward x t v).eps
        = x * Real.sin (t * Real.pi / 2) + v * Real.cos (t * Real.pi / 2) ∧
    (SecondaryDiffusionImageNet2.forward x t v).eps * Real.cos (t * Real.pi / 2)
        - (SecondaryDiffusionImageNet2.forward x t v).pred
            * Real.sin (t * Real.pi / 2) = v ∧
    (SecondaryDiffusionImageNet2.forward x t v).pred * Real.cos (t * Real.pi / 2)
        + (SecondaryDiffusionImageNet2.forward x t v).eps
            * Real.sin (t * Real.pi / 2) = x := by
  have h := Real.sin_sq_add_cos_sq (t * Real.pi / 2)
  unfold SecondaryDiffusionImageNet2.forward t_to_alpha_sigma
  refine ⟨rfl, rfl, ?_, ?_⟩
  · dsimp only
    linear_combination v * h
  · dsimp only
    linear_combination x * h

/-- C9: for every timestep `t` in `[0, 1]`, `t_to_alpha_sigma` returns
`alpha = cos(t·π/2)` and `sigma = sin(t·π/2)`, and these satisfy
`alpha² + sigma² = 1`. -/
theorem alpha_sigma_pythagorean (t : ℝ) (h0 : 0 ≤ t) (h1 : t ≤ 1) :
    (t_to_alpha_sigma t).1 = Real.cos (t * Real.pi / 2) ∧
    (t_to_alpha_sigma t).2 = Real.sin (t * Real.pi / 2) ∧
    (t_to_alpha_sigma t).1 ^ 2 + (t_to_alpha_sigma t).2 ^ 2 = 1 :=
  ⟨rfl, rfl, Real.cos_sq_add_sin_sq (t * Real.pi / 2)⟩

/-- Witness for `alpha_sigma_pythagorean` at `t = 0`. -/
theorem alpha_sigma_pythagorean_witness :
    (0 : ℝ) ≤ 0 ∧ (0 : ℝ) ≤ 1 ∧
    ((t_to_alpha_sigma 0).1 = Real.cos (0 * Real.pi / 2) ∧
      (t_to_alpha_sigma 0).2 = Real.sin (0 * Real.pi / 2) ∧
      (t_to_alpha_sigma 0).1 ^ 2 + (t_to_alpha_sigma 0).2 ^ 2 = 1) :=
  ⟨le_refl 0, zero_le_one, alpha_sigma_pythagorean 0 (le_refl 0) zero_le_one⟩

/-- C2 counterexample: constructing a `GuidedDiffusion` with the unknown
sampler kind "euler" completes normally — the `if/elif/elif` dispatch
falls through all branches without raising — and leaves the sampler
function unassigned, contradicting the claim that construction raises a
fatal configuration error and does not complete normally. -/
theorem construct_unknown_sampler_completes :
    GuidedDiffusion.construct ("euler") = { sample_fn := none } := by
  decide

/-- C2 amended: for every sampler kind outside {"p", "ddim", "plms"},
construction completes normally with no sampler function assigned (there
is no silent fallback to a default sampler), and the failure surfaces only
at the first `sample` call with `n_steps ≥ 1`, where accessing the missing
`sample_fn` attribute raises. -/
theorem construct_unknown_sampler_unassigned (s : String)
    (h1 : s ≠ ("p")) (h2 : s ≠ ("ddim")) (h3 : s ≠ ("plms")) :
    (GuidedDiffusion.construct s).sample_fn = none ∧
    ∀ (α β : Type) (smp : β → α) (stepF : Int → α → Option β → β)
      (qfn : Int → Option α → α → α) (img : α) (S : Int) (N : Nat)
      (q : Option Int) (noise : Option α), 1 ≤ N →
        GuidedDiffusion.sampleMethod (GuidedDiffusion.construct s) smp stepF
          qfn img S N q noise = none := by
  have hfn : initSampleFn s = none := by
    unfold initSampleFn
    rw [if_neg h1, if_neg h2, if_neg h3]
  constructor
  · exact hfn
  · intro α β smp stepF qfn img S N q noise hN
    simp only [GuidedDiffusion.sampleMethod, GuidedDiffusion.construct, hfn]
    rw [if_neg (by omega : ¬ N = 0)]

/-- Witness for `construct_unknown_sampler_unassigned` at the sampler
kind "euler". -/
theorem construct_unknown_sampler_unassigned_witness :
    ("euler" ≠ ("p") ∧ "euler" ≠ ("ddim") ∧ "euler" ≠ ("plms")) ∧
    ((GuidedDiffusion.construct ("euler")).sample_fn = none ∧
      ∀ (α β : Type) (smp : β → α) (stepF : Int → α → Option β → β)
        (qfn : Int → Option α → α → α) (img : α) (S : Int) (N : Nat)
        (q : Option Int) (noise : Option α), 1 ≤ N →
          GuidedDiffusion.sampleMethod (GuidedDiffusion.construct ("euler"))
            smp stepF qfn img S N q noise = none) :=
  ⟨⟨by decide, by decide, by decide⟩,
    construct_unknown_sampler_unassigned ("euler") (by decide) (by decide)
      (by decide)⟩

theorem evalNet_nil {c s : Nat} : evalNet Net.nil (c, s) = some (c, s) := rfl

theorem evalNet_down {rest : Net} {c s : Nat} :
    evalNet (Net.down rest) (c, s) = evalNet rest (c, s / 2) := rfl

theorem evalNet_up {rest : Net} {c s : Nat} :
    evalNet (Net.up rest) (c, s) = evalNet rest (c, 2 * s) := rfl

theorem evalNet_conv {cin cout : Nat} {rest : Net} {c s : Nat}
    (h1 : c = cin) (h2 : 1 ≤ s) :
    evalNet (Net.conv cin cout rest) (c, s) = evalNet rest (cout, s) := by
  simp only [evalNet]
  rw [if_pos ⟨h1, h2⟩]

theorem evalNet_skip {main rest : Net} {c s c2 : Nat}
    (h : evalNet main (c, s) = some (c2, s)) :
    evalNet (Net.skip main rest) (c, s) = evalNet rest (c2 + c, s) := by
  simp only [evalNet, h]
  rw [if_true]

theorem evalNet_block5 (m : Nat) (hm : 1 ≤ m) :
    evalNet block5 (256, 2 * m) = some (256, 2 * m) := by
  have h2 : 2 * m / 2 = m := by omega
  rw [block5, evalNet_down, h2, evalNet_conv rfl hm, evalNet_conv rfl hm,
    evalNet_conv rfl hm, evalNet_conv rfl hm, evalNet_up, evalNet_nil]

theorem evalNet_block4 (m : Nat) (hm : 1 ≤ m) :
    evalNet block4 (256, 4 * m) = some (256, 4 * m) := by
  have h2 : 4 * m / 2 = 2 * m := by omega
  have h4 : 2 * (2 * m) = 4 * m := by ring
  have hm2 : (1 : Nat) ≤ 2 * m := by omega
  rw [block4, evalNet_down, h2, evalNet_conv rfl hm2, evalNet_conv rfl hm2,
    evalNet_skip (evalNet_block5 m hm), evalNet_conv (by norm_num) hm2,
    evalNet_conv rfl hm2, evalNet_up, h4, evalNet_nil]

theorem evalNet_block3 (m : Nat) (hm : 1 ≤ m) :
    evalNet block3 (128, 8 * m) = some (128, 8 * m) := by
  have h2 : 8 * m / 2 = 4 * m := by omega
  have h4 : 2 * (4 * m) = 8 * m := by ring
  have hm4 : (1 : Nat) ≤ 4 * m := by omega
  rw [block3, evalNet_down, h2, evalNet_conv rfl hm4, evalNet_conv rfl hm4,
    evalNet_skip (evalNet_block4 m hm), evalNet_conv (by norm_num) hm4,
    evalNet_conv rfl hm4, evalNet_up, h4, evalNet_nil]

theorem evalNet_block2 (m : Nat) (hm : 1 ≤ m) :
    evalNet block2 (128, 16 * m) = some (128, 16 * m) := by
  have h2 : 16 * m / 2 = 8 * m := by omega
  have h4 : 2 * (8 * m) = 16 * m := by ring
  have hm8 : (1 : Nat) ≤ 8 * m := by omega
  rw [block2, evalNet_down, h2, evalNet_conv rfl hm8, evalNet_conv rfl hm8,
    evalNet_skip (evalNet_block3 m hm), evalNet_conv (by norm_num) hm8,
    evalNet_conv rfl hm8, evalNet_up, h4, evalNet_nil]

theorem evalNet_block1 (m : Nat) (hm : 1 ≤ m) :
    evalNet block1 (64, 32 * m) = some (64, 32 * m) := by
  have h2 : 32 * m / 2 = 16 * m := by omega
  have h4 : 2 * (16 * m) = 32 * m := by ring
  have hm16 : (1 : Nat) ≤ 16 * m := by omega
  rw [block1, evalNet_down, h2, evalNet_conv rfl hm16, evalNet_conv rfl hm16,
    evalNet_skip (evalNet_block2 m hm), evalNet_conv (by norm_num) hm16,
    evalNet_conv rfl hm16, evalNet_up, h4, evalNet_nil]

theorem evalNet_secondaryNet (m : Nat) (hm : 1 ≤ m) :
    evalNet secondaryNet (19, 32 * m) = some (3, 32 * m) := by
  have hm32 : (1 : Nat) ≤ 32 * m := by omega
  rw [secondaryNet, evalNet_conv rfl hm32, evalNet_conv rfl hm32,
    evalNet_skip (evalNet_block1 m hm), evalNet_conv (by norm_num) hm32,
    evalNet_conv rfl hm32, evalNet_nil]

/-- C4 counterexample: the secondary U-Net has five downsampling levels,
not four, and the forward pass on an input with spatial size 16 — which is
divisible by 2^4 — fails (a conv is reached on an empty spatial extent)
instead of returning a tensor of the input's shape. -/
theorem secondary_net_four_levels_false :
    countDowns secondaryNet ≠ 4 ∧ countDowns secondaryNet = 5 ∧
    evalNet secondaryNet (19, 16) = none := by
  refine ⟨by decide, by decide, by decide⟩

/-- C4 amended: the secondary denoiser is a symmetric encoder-decoder with
exactly five levels of 2× spatial downsampling, each matched by a
corresponding 2× upsampling and a channel-concatenating skip connection,
and its forward output has the same shape as the input image (3 channels,
same spatial size) for every input whose spatial dimensions are divisible
by 2^5. -/
theorem secondary_net_five_levels_shape (m : Nat) (hm : 1 ≤ m) :
    countDowns secondaryNet = 5 ∧ countUps secondaryNet = 5 ∧
    evalNet secondaryNet (19, 32 * m) = some (3, 32 * m) :=
  ⟨by decide, by decide, evalNet_secondaryNet m hm⟩

/-- Witness for `secondary_net_five_levels_shape` at spatial size 32. -/
theorem secondary_net_five_levels_shape_witness :
    1 ≤ 1 ∧ (countDowns secondaryNet = 5 ∧ countUps secondaryNet = 5 ∧
      evalNet secondaryNet (19, 32 * 1) = some (3, 32 * 1)) :=
  ⟨by decide, secondary_net_five_levels_shape 1 (by decide)⟩

theorem runLoop_fst_shape {α β : Type} (k : Sampler) (smp : β → α)
    (stepF : Int → α → Option β → β) (sh : α → List Nat)
    (hstep : ∀ (t : Int) (x : α) (h : Option β), sh (smp (stepF t x h)) = sh x)
    (ts : List Int) :
    ∀ (img : α) (prev : Option β),
      sh ((runLoop k smp stepF ts img prev).1) = sh img := by
  induction ts with
  | nil => intro img prev; rfl
  | cons t ts ih =>
      intro img prev
      simp only [runLoop]
      rw [ih]
      exact hstep _ _ _

/-- C7: the `forward` entry point with a schedule of 50 total steps and a
starting tensor of shape (1, 3, 64, 64) sets both `start_step` and
`n_steps` to 50, delegates to `sample`, invokes the one-step sampler
exactly 50 times, and returns a tensor of shape (1, 3, 64, 64) — given
that the external one-step sampler's `"sample"` field and the external
forward-noising function preserve tensor shape, as their contracts
require. -/
theorem forward_fifty_steps_shape {α β : Type} (k : Sampler) (smp : β → α)
    (stepF : Int → α → Option β → β) (qfn : Int → Option α → α → α)
    (sh : α → List Nat)
    (hstep : ∀ (t : Int) (x : α) (h : Option β), sh (smp (stepF t x h)) = sh x)
    (hq : ∀ (t : Int) (n : Option α) (x : α), sh (qfn t n x) = sh x)
    (img : α) (himg : sh img = [1, 3, 64, 64]) :
    (GuidedDiffusion.forward k smp stepF qfn 50 img).2.length = 50 ∧
    sh (GuidedDiffusion.forward k smp stepF qfn 50 img).1 = [1, 3, 64, 64] ∧
    GuidedDiffusion.forward k smp stepF qfn 50 img
      = GuidedDiffusion.sample k smp stepF qfn img 50 50 none none := by
  refine ⟨?_, ?_, rfl⟩
  · unfold GuidedDiffusion.forward GuidedDiffusion.sample
    rw [runLoop_length, stepsList_length]
  · unfold GuidedDiffusion.forward GuidedDiffusion.sample
    rw [runLoop_fst_shape k smp stepF sh hstep]
    simp [applyQ, hq, himg]

/-- Witness for `forward_fifty_steps_shape` at a concrete instance where
the image type is its own shape. -/
theorem forward_fifty_steps_shape_witness :
    ((fun (l : List Nat) => l) [1, 3, 64, 64] = [1, 3, 64, 64]) ∧
    ((GuidedDiffusion.forward Sampler.ddim (fun (o : List Nat) => o)
        (fun _ x _ => x) (fun _ _ x => x) 50 [1, 3, 64, 64]).2.length = 50 ∧
      (fun (l : List Nat) => l)
          (GuidedDiffusion.forward Sampler.ddim (fun (o : List Nat) => o)
            (fun _ x _ => x) (fun _ _ x => x) 50 [1, 3, 64, 64]).1
        = [1, 3, 64, 64] ∧
      GuidedDiffusion.forward Sampler.ddim (fun (o : List Nat) => o)
          (fun _ x _ => x) (fun _ _ x => x) 50 [1, 3, 64, 64]
        = GuidedDiffusion.sample Sampler.ddim (fun (o : List Nat) => o)
            (fun _ x _ => x) (fun _ _ x => x) [1, 3, 64, 64] 50 50
            none none) :=
  ⟨rfl,
    forward_fifty_steps_shape Sampler.ddim (fun (o : List Nat) => o)
      (fun _ x _ => x) (fun _ _ x => x) (fun (l : List Nat) => l)
      (fun _ _ _ => rfl) (fun _ _ _ => rfl) [1, 3, 64, 64] rfl⟩

/-- C8: after `create_models` loads the main denoising network, a
parameter has gradients enabled if and only if its name contains "qkv",
"norm", or "proj" as a substring (the attention, normalization, and
projection sublayers); every other parameter remains gradient-frozen,
regardless of its gradient flag before loading. -/
theorem create_models_grad_iff (params : List (String × Bool))
    (p : String × Bool) (hp : p ∈ create_models_param_grads params) :
    p.2 = true ↔
      (("qkv").toList <:+: p.1.toList ∨ ("norm").toList <:+: p.1.toList
        ∨ ("proj").toList <:+: p.1.toList) := by
  unfold create_models_param_grads at hp
  rcases List.mem_map.mp hp with ⟨q, hq1, hq2⟩
  rcases List.mem_map.mp hq1 with ⟨r, _, hr2⟩
  by_cases h : guided_param_match q.1 = true
  · rw [if_pos h] at hq2
    subst hq2
    unfold guided_param_match at h
    simp only [Bool.or_eq_true, decide_eq_true_eq] at h
    exact ⟨fun _ => or_assoc.mp h, fun _ => rfl⟩
  · rw [if_neg h] at hq2
    subst hq2
    subst hr2
    refine iff_of_false (by simp) ?_
    intro hd
    apply h
    unfold guided_param_match
    simp only [Bool.or_eq_true, decide_eq_true_eq]
    rcases hd with hd | hd | hd
    · exact Or.inl (Or.inl hd)
    · exact Or.inl (Or.inr hd)
    · exact Or.inr hd

/-- Witness for `create_models_grad_iff` on a concrete parameter list. -/
theorem create_models_grad_iff_witness :
    ((("b.mlp.w"), false) ∈ create_models_param_grads
        [(("a.qkv.w"), false), (("b.mlp.w"), true)]) ∧
    (((("b.mlp.w"), false) : String × Bool).2 = true ↔
      (("qkv").toList <:+: (("b.mlp.w") : String).toList
        ∨ ("norm").toList <:+: (("b.mlp.w") : String).toList
        ∨ ("proj").toList <:+: (("b.mlp.w") : String).toList)) :=
  ⟨by decide,
    create_models_grad_iff [(("a.qkv.w"), false), (("b.mlp.w"), true)]
      (("b.mlp.w"), false) (by decide)⟩

/-- C10: when `sample` is called with `q_sample` omitted (`None`) and
`start_step > 0`, the forward-noise level defaults to `start_step`, so one
forward-noising step at timestep `start_step - 1` is applied to the
initial image before the reverse loop; in particular `forward`'s freshly
drawn starting image is forward-noised once before sampling; and omitting
`q_sample` is not equivalent to passing `q_sample = 0`. -/
theorem qsample_default_forward_noising {α β : Type} (k : Sampler)
    (smp : β → α) (stepF : Int → α → Option β → β)
    (qfn : Int → Option α → α → α) (img : α) (S : Int) (noise : Option α)
    (Ntot : Nat) (hS : 0 < S) (hN : 0 < Ntot) :
    applyQ qfn S none noise img = qfn (S - 1) noise img ∧
    (GuidedDiffusion.forward k smp stepF qfn Ntot img).2.head?.map Call.imgIn
      = some (qfn ((Ntot : Int) - 1) none img) ∧
    applyQ (fun _ _ x => x + 1) S none none (0 : Int)
      ≠ applyQ (fun _ _ x => x + 1) S (some 0) none (0 : Int) := by
  have h1 : applyQ qfn S none noise img = qfn (S - 1) noise img := by
    simp [applyQ, hS]
  refine ⟨h1, ?_, ?_⟩
  · unfold GuidedDiffusion.forward
    rw [sample_head_imgIn k smp stepF qfn img (Ntot : Int) Ntot none none hN]
    have hpos : (0 : Int) < (Ntot : Int) := by exact_mod_cast hN
    simp [applyQ, hpos]
  · intro hcontra
    simp [applyQ, hS] at hcontra

/-- Witness for `qsample_default_forward_noising` at a concrete
instance. -/
theorem qsample_default_forward_noising_witness :
    ((0 : Int) < 2 ∧ 0 < 1) ∧
    (applyQ (fun t n x => x + t) 2 none none (0 : Int)
        = (fun (t : Int) (n : Option Int) (x : Int) => x + t) (2 - 1) none 0 ∧
      (GuidedDiffusion.forward Sampler.p (id : Int → Int)
        (fun t x _ => x + t) (fun t n x => x + t) 1 0).2.head?.map Call.imgIn
        = some ((fun (t : Int) (n : Option Int) (x : Int) => x + t)
            (((1 : Nat) : Int) - 1) none 0) ∧
      applyQ (fun _ _ x => x + 1) 2 none none (0 : Int)
        ≠ applyQ (fun _ _ x => x + 1) 2 (some 0) none (0 : Int)) :=
  ⟨⟨by decide, by decide⟩,
    qsample_default_forward_noising Sampler.p (id : Int → Int)
      (fun t x _ => x + t) (fun t n x => x + t) 0 2 none 1 (by decide)
      (by decide)⟩
